import Mathlib

/-!
Verification development for the GameLib.Audio mixer (src/trunk/Mixer.cs).

The C# code is shallowly embedded: machine integers are modelled as ℤ/ℕ with
explicit reduction modulo 2^32 where `uint` arithmetic matters, C# `int`
division (truncation toward zero) is written `Int.tdiv`, and the arithmetic
right shift `>> 8` on non-negative operands is floor division by 256.
The native GLMixer primitives (GLM_Mix and friends) are declared in
src/trunk/Mixer/Mixer.h but implemented outside src/; where they are needed
they are modelled from the spec (see the doc comments marked
`Modelled from the spec:`).  Sources are represented as in-memory frame
producers already in the mixer format, so the `convert` flag of a channel is
false on every path the theorems exercise; the native resampling path is kept
as an explicit guarded branch.
-/

namespace GameLibAudio

/-- Reduction of a natural number to the range of a C# `uint`. -/
def u32 (x : ℕ) : ℕ := x % 4294967296

/-- C# unsigned 32-bit subtraction `a - b` (wraps modulo 2^32). -/
def usub32 (a b : ℕ) : ℕ := (u32 a + 4294967296 - u32 b) % 4294967296

/-- The value of a C# `(int)` cast applied to a `uint`. -/
def toInt32u (x : ℕ) : ℤ :=
  if u32 x < 2147483648 then (u32 x : ℤ) else (u32 x : ℤ) - 4294967296

/-- Saturation to the 32-bit signed range, as performed by the native mixer. -/
def sat32 (x : ℤ) : ℤ := max (-2147483648) (min 2147483647 x)

/-- C# arithmetic right shift by 8 (`>> 8` on `int`): floor division by 256. -/
def shr8 (x : ℤ) : ℤ := Int.fdiv x 256

/-- Reduction of an integer to the signed 32-bit range: the value a C#
unchecked `int` operation stores when its true result overflows. -/
def wrap32 (x : ℤ) : ℤ := (x + 2147483648) % 4294967296 - 2147483648

/-- `AudioStatus` from Mixer.cs line 26. -/
inductive AudioStatus
  | stopped
  | playing
  | paused
deriving DecidableEq, Repr

/-- `Fade` from Mixer.cs line 27 (the source names the constructors None, In, Out). -/
inductive Fade
  | none
  | fadeIn
  | fadeOut
deriving DecidableEq, Repr

/-- `PlayPolicy` from Mixer.cs line 28. -/
inductive PlayPolicy
  | fail
  | oldest
  | priority
  | oldestPriority
deriving DecidableEq, Repr

/-- Observable callback invocations: a channel's `Finished` event followed by the
mixer's global `ChannelFinished` hook, each tagged with the channel number. -/
inductive GlEvent
  | chanFinished (number : ℤ)
  | mixerChannelFinished (number : ℤ)
deriving DecidableEq, Repr

/-- The exceptions thrown by the mixer code, one constructor per throw site. -/
inductive GlError
  | outOfRange
  | argLoopUnrewindable
  | argReplayUnseekable
  | argArrayCopy
  | invalidGroupId
  | notImplementedCvt
  | nullReference
  | indexOutOfRange
deriving DecidableEq, Repr

/-- `Mixer.Infinite = -1` (Mixer.cs line 532). -/
def infiniteC : ℤ := -1

/-- `Mixer.MaxVolume = 256` (Mixer.cs line 532). -/
def maxVolume : ℤ := 256

/-- The state of an `AudioSource` (Mixer.cs lines 48-97).  `canRewind`,
`canSeek`, `priority`, `volume`, `rate` and the internal `playing` counter are
the fields of the abstract class; the frame data itself is
Modelled from the spec: an in-memory producer already in the mixer format
(§4.2: `read_frames` returns `min(available, requested)` frames and advances
`position` by exactly that amount; the decoders themselves are outside src/). -/
structure AudioSource where
  canRewind : Bool
  canSeek : Bool
  priority : ℤ
  srcVolume : ℤ
  rate : ℚ
  playing : ℤ
  data : List ℤ
  pos : ℤ
deriving DecidableEq, Repr

/-- `Mixer.CheckRate` (Mixer.cs lines 832-834): throws when the argument is
negative. -/
def checkRate (rate : ℚ) : Except GlError Unit :=
  if rate < 0 then .error .outOfRange else .ok ()

/-- The `AudioSource.PlaybackRate` setter (Mixer.cs line 60):
`set { Mixer.CheckRate(rate); lock(this) rate=value; }`.  Note that the source
passes the current field `rate` to `CheckRate`, not the incoming `value`. -/
def AudioSource.setPlaybackRate (src : AudioSource) (value : ℚ) :
    Except GlError AudioSource :=
  match checkRate src.rate with
  | .error e => .error e
  | .ok _ => .ok { src with rate := value }

/-- Modelled from the spec: `GLM_Mix` (Mixer.h; implementation outside src/):
`dest[i] := saturating_add(dest[i], (src[i] × volume) >> 8)` for each sample
of `src`, leaving the remainder of `dest` unchanged (§4.1). -/
def glmMix : List ℤ → List ℤ → ℤ → List ℤ
  | a :: as, s :: ss, volume => sat32 (a + shr8 (s * volume)) :: glmMix as ss volume
  | acc, [], _ => acc
  | [], _, _ => []

/-- `AudioSource.ReadFrames` for an in-memory mixer-format source
(the SampleSource path, Mixer.cs lines 331-345, with `volume ≥ 0`): mix
`min(length - position, frames)` frames into the head of the accumulator at
the given volume, advance the position, and return the frames produced. -/
def AudioSource.readFrames (src : AudioSource) (acc : List ℤ) (frames : ℕ)
    (volume : ℤ) : AudioSource × List ℤ × ℕ :=
  let avail : ℕ := ((src.data.length : ℤ) - src.pos).toNat
  let n : ℕ := min frames avail
  let chunk : List ℤ := (src.data.drop src.pos.toNat).take n
  ({ src with pos := src.pos + (n : ℤ) }, glmMix acc chunk volume, n)

/-- The state of a `Channel` (Mixer.cs lines 353-525).  `source` holds the
value of the bound source object (`none` encodes the C# null reference). -/
structure Channel where
  number : ℤ
  volume : ℤ
  source : Option AudioSource
  loops : ℤ
  timeout : ℤ
  fade : Fade
  fadeStart : ℕ
  fadeTime : ℕ
  fadeVolume : ℤ
  rate : ℚ
  paused : Bool
  pos : ℤ
  startTime : ℕ
  priority : ℤ
  convert : Bool
deriving DecidableEq, Repr

/-- The `Channel(int channel)` constructor (Mixer.cs line 354): number set,
volume `MaxVolume`, every other field at its C# default. -/
def newChannel (i : ℤ) : Channel :=
  { number := i, volume := maxVolume, source := Option.none, loops := 0,
    timeout := 0, fade := .none, fadeStart := 0, fadeTime := 0, fadeVolume := 0,
    rate := 1, paused := false, pos := 0, startTime := 0, priority := 0,
    convert := false }

/-- `Channel.Status` (Mixer.cs lines 367-369). -/
def Channel.status (c : Channel) : AudioStatus :=
  match c.source with
  | Option.none => .stopped
  | some _ => if c.paused then .paused else .playing

/-- `Channel.EffectiveVolume` (Mixer.cs line 515). -/
def Channel.effectiveVolume (c : Channel) (src : AudioSource) : ℤ :=
  if src.srcVolume = maxVolume then c.volume else shr8 (c.volume * src.srcVolume)

/-- `Channel.EffectiveRate` (Mixer.cs line 516). -/
def Channel.effectiveRate (c : Channel) (src : AudioSource) : ℚ :=
  src.rate * c.rate

/-- `Channel.StopPlaying` (Mixer.cs lines 417-424): a no-op on an idle channel;
otherwise fire the channel's `Finished` event, then `Mixer.OnChannelFinished`,
then clear the binding.  The event list records the invocation points in
order. -/
def Channel.stopPlaying (c : Channel) : Channel × List GlEvent :=
  match c.source with
  | Option.none => (c, [])
  | some _ =>
      ({ c with source := Option.none },
       [.chanFinished c.number, .mixerChannelFinished c.number])

/-- `Channel.Pause` (Mixer.cs line 374). -/
def Channel.pauseCmd (c : Channel) : Channel := { c with paused := true }

/-- `Channel.Resume` (Mixer.cs line 375). -/
def Channel.resumeCmd (c : Channel) : Channel := { c with paused := false }

/-- `Channel.FadeOut` (Mixer.cs lines 378-386). -/
def Channel.fadeOutCmd (now fadeMs : ℕ) (c : Channel) : Channel :=
  match c.source with
  | Option.none => c
  | some src =>
      { c with fade := .fadeOut, fadeTime := u32 fadeMs, fadeStart := u32 now,
               fadeVolume := c.effectiveVolume src }

/-- The channel's `PlaybackRate` setter (Mixer.cs line 372): like the source's
setter it passes the current field `rate` to `CheckRate`, not the new value. -/
def Channel.setPlaybackRate (c : Channel) (value : ℚ) : Except GlError Channel :=
  match checkRate c.rate with
  | .error e => .error e
  | .ok _ => .ok { c with rate := value }

/-- Result of `Channel.StartPlaying`: the post state of the channel and of the
source object, the finished events fired on the way (the unconditional
`StopPlaying()` at Mixer.cs line 389), and the exception, if one was thrown. -/
structure StartResult where
  chan : Channel
  src : AudioSource
  events : List GlEvent
  error : Option GlError
deriving DecidableEq, Repr

/-- `Channel.StartPlaying` (Mixer.cs lines 388-415).  The prior binding is
stopped first; then the rewind and seek checks may throw (leaving the new
source unbound and unmodified); otherwise the source's `playing` counter is
incremented and the channel fields are assigned.  Sources are modelled at the
mixer format, so `convert` is false (`!source.Format.Equals(Mixer.Format)`). -/
def Channel.startPlaying (now : ℕ) (c : Channel) (source : AudioSource)
    (loops : ℤ) (fade : Fade) (fadeMs : ℕ) (timeoutMs : ℤ) : StartResult :=
  let p := c.stopPlaying
  if source.canRewind = false ∧ loops ≠ 0 then
    ⟨p.1, source, p.2, some .argLoopUnrewindable⟩
  else if source.canSeek = false ∧ source.playing > 0 then
    ⟨p.1, source, p.2, some .argReplayUnseekable⟩
  else
    let source1 := { source with playing := source.playing + 1 }
    let c2 : Channel :=
      { p.1 with source := some source1, loops := loops, fade := fade,
                 timeout := timeoutMs, priority := source.priority, pos := 0,
                 paused := false, startTime := u32 now, convert := false }
    let c3 : Channel :=
      if fade ≠ Fade.none then
        { c2 with fadeTime := u32 fadeMs,
                  fadeVolume := if fade = Fade.fadeIn then 0
                                else c2.effectiveVolume source1,
                  fadeStart := u32 now }
      else c2
    ⟨c3, source1, p.2, Option.none⟩

/-- Outcome of the prelude of `Channel.Mix` (Mixer.cs lines 427-447): either
an early return (with the events fired by a `StopPlaying` on the way), the
volume to be applied to fresh input for this pass, or the
`DivideByZeroException` raised when `fadeTime` is zero. -/
inductive MixPre
  | exit (c : Channel) (events : List GlEvent)
  | proceed (c : Channel) (src : AudioSource) (volume : ℤ)
  | fault
deriving DecidableEq, Repr

/-- The prelude of `Channel.Mix` (Mixer.cs lines 427-447): idle/paused early
return, effective-volume snapshot, timeout check and fade update, faithful to
the `uint` arithmetic on `Timing.Ticks` and to the wrapping 32-bit `int`
arithmetic of the interpolation `fadeVolume + (target-fadeVolume)*(int)fadeSoFar
/(int)fadeTime` (each subtraction, product and sum is reduced by `wrap32`;
`fadeTime` cast to 0 raises `DivideByZeroException` and a `MinValue / -1`
division raises `OverflowException`, both `.fault`). -/
def Channel.mixPre (now : ℕ) (c : Channel) : MixPre :=
  match c.source with
  | Option.none => .exit c []
  | some src =>
    if c.paused then .exit c [] else
    let volume := c.effectiveVolume src
    if c.timeout ≠ infiniteC ∧ (usub32 now c.startTime : ℤ) > c.timeout then
      let p := c.stopPlaying
      .exit p.1 p.2
    else if c.fade = Fade.none then .proceed c src volume
    else
      let fadeSoFar : ℕ := usub32 now c.fadeStart
      let target : ℤ := if c.fade = Fade.fadeIn then volume else 0
      if fadeSoFar > c.fadeTime then
        if c.fade = Fade.fadeOut then
          let p := c.stopPlaying
          .exit p.1 p.2
        else .proceed { c with fade := Fade.none } src target
      else
        if toInt32u c.fadeTime = 0 then .fault
        else if wrap32 (wrap32 (target - c.fadeVolume) * toInt32u fadeSoFar)
                = -2147483648 ∧ toInt32u c.fadeTime = -1 then .fault
        else
          .proceed c src
            (wrap32 (c.fadeVolume +
              Int.tdiv (wrap32 (wrap32 (target - c.fadeVolume) * toInt32u fadeSoFar))
                (toInt32u c.fadeTime)))

/-- The read loop of `Channel.Mix` (Mixer.cs lines 467-511) on the
`convert = false`, unit-rate, no-filter path: `ReadFrames` mixes into the
accumulator directly; on a zero-length read the channel stops when `loops`
is 0, otherwise the source is rewound and `loops` decremented unless
infinite.  The C# loop has no termination guarantee (an empty source with
infinite loops spins), so the recursion is fuelled; fuel exhaustion returns
the state reached so far. -/
def Channel.mixLoop : ℕ → Channel → AudioSource → ℤ → ℤ → List ℤ →
    Channel × AudioSource × List ℤ × List GlEvent
  | 0, c, src, _, _, acc => ({ c with source := some src }, src, acc, [])
  | fuel + 1, c, src, toRead, volume, acc =>
    let r := src.readFrames acc toRead.toNat volume
    let src1 := r.1
    let acc1 := r.2.1
    let read := r.2.2
    let toRead1 := toRead - (read : ℤ)
    if toRead1 ≤ 0 then
      ({ c with source := some src1, pos := src1.pos }, src1, acc1, [])
    else if read = 0 then
      if c.loops = 0 then
        let p := Channel.stopPlaying { c with source := some src1 }
        (p.1, src1, acc1, p.2)
      else
        let src2 := { src1 with pos := 0 }
        Channel.mixLoop fuel
          { c with source := some src2, pos := 0,
                   loops := if c.loops ≠ infiniteC then c.loops - 1 else c.loops }
          src2 toRead1 volume acc1
    else
      Channel.mixLoop fuel { c with source := some src1 } src1 toRead1 volume acc1

/-- Result of one `Channel.Mix` pass: the channel, the final value of the
source object the pass touched (`none` when the channel held no source), the
accumulator, the events fired, and whether the pass faulted
(`DivideByZeroException`). -/
structure MixResult where
  chan : Channel
  srcFinal : Option AudioSource
  acc : List ℤ
  events : List GlEvent
  fault : Bool
deriving DecidableEq, Repr

/-- `Channel.Mix` (Mixer.cs lines 426-513).  After the prelude, the source is
seeked to the channel position when seekable; the `convert`/rate branch drives
the native resampler, which is outside src/ — Modelled from the spec: with the
snapped frequency equal to zero the channel contributes nothing this callback
(§4.1); the nonzero-rate resampling path is likewise represented as producing
no contribution, and no theorem below depends on it.  The unit-rate
mixer-format path runs the read loop. -/
def Channel.mix (now frames : ℕ) (c : Channel) (acc : List ℤ) : MixResult :=
  match Channel.mixPre now c with
  | .exit c1 evs => ⟨c1, c.source, acc, evs, false⟩
  | .fault => ⟨c, c.source, acc, [], true⟩
  | .proceed c1 src volume =>
    let src := if src.canSeek then { src with pos := c1.pos } else src
    if c1.convert = true ∨ c1.effectiveRate src ≠ 1 then
      ⟨{ c1 with source := some src }, some src, acc, [], false⟩
    else
      let r := Channel.mixLoop (frames + c1.loops.toNat + 2) c1 src (frames : ℤ)
        volume acc
      ⟨r.1, some r.2.1, r.2.2.1, r.2.2.2, false⟩

/-- Application-visible operations on one channel bound to one source object,
used for the trace theorems. -/
inductive Op
  | start (loops : ℤ) (fade : Fade) (fadeMs : ℕ) (timeoutMs : ℤ) (now : ℕ)
  | stop
  | pause
  | resume
  | fadeOutOp (fadeMs : ℕ) (now : ℕ)
  | mixOp (now frames : ℕ)
deriving DecidableEq, Repr

/-- Whether an operation is a `StartPlaying`. -/
def Op.isStart : Op → Bool
  | .start _ _ _ _ _ => true
  | _ => false

/-- A world with one channel and one application-held source object, together
with the device accumulator and the trace of finished events. -/
structure World where
  chan : Channel
  src : AudioSource
  acc : List ℤ
  events : List GlEvent
deriving DecidableEq, Repr

/-- One step of the world: each operation is the corresponding method of
`Channel` / `Mixer`; a `start` that throws leaves the world at the state the
method had produced before the throw. -/
def stepOp (w : World) : Op → World
  | .start loops fade fadeMs timeoutMs now =>
    let r := Channel.startPlaying now w.chan w.src loops fade fadeMs timeoutMs
    { w with chan := r.chan, src := r.src, events := w.events ++ r.events }
  | .stop =>
    let p := w.chan.stopPlaying
    { w with chan := p.1, events := w.events ++ p.2 }
  | .pause => { w with chan := w.chan.pauseCmd }
  | .resume => { w with chan := w.chan.resumeCmd }
  | .fadeOutOp fadeMs now => { w with chan := w.chan.fadeOutCmd now fadeMs }
  | .mixOp now frames =>
    let r := Channel.mix now frames w.chan w.acc
    { chan := r.chan, src := r.srcFinal.getD w.src, acc := r.acc,
      events := w.events ++ r.events }

/-- Run a list of operations left to right. -/
def runOps (w : World) : List Op → World
  | [] => w
  | op :: ops => runOps (stepOp w op) ops

/-- The static state of the `Mixer` class (Mixer.cs lines 970-978) relevant to
the channel-array, reservation and group claims.  Array slots of C# reference
type are nullable, hence the `Option`s. -/
structure MixerState where
  chans : List (Option Channel)
  reserved : ℤ
  groups : List (Option (List ℤ))
deriving DecidableEq, Repr

/-- The `Mixer.ReservedChannels` setter (Mixer.cs lines 552-559):
`if(reserved<0 || reserved>chans.Length) throw ...; reserved=value;` — the
test reads the current field `reserved`, not the incoming `value`. -/
def setReservedChannels (st : MixerState) (value : ℤ) :
    Except GlError MixerState :=
  if st.reserved < 0 ∨ st.reserved > (st.chans.length : ℤ) then
    .error .outOfRange
  else .ok { st with reserved := value }

/-- The stop loop of `AllocateChannels` (Mixer.cs line 603) applied to the
slots being removed, in index order; a null slot raises
`NullReferenceException`. -/
def stopAll : List (Option Channel) →
    Except GlError (List (Option Channel) × List GlEvent)
  | [] => .ok ([], [])
  | Option.none :: _ => .error .nullReference
  | some c :: rest =>
    let p := c.stopPlaying
    match stopAll rest with
    | .error e => .error e
    | .ok (rest1, evs) => .ok (some p.1 :: rest1, p.2 ++ evs)

/-- Result of `AllocateChannels`, keeping the finished events fired and the
state mutations already performed before an exception propagates. -/
inductive AllocResult
  | ok (st : MixerState) (events : List GlEvent)
  | error (e : GlError) (st : MixerState) (events : List GlEvent)
deriving DecidableEq, Repr

/-- `Mixer.AllocateChannels` (Mixer.cs lines 599-610).  After stopping the
channels with index ≥ `numChannels`, the source executes
`Array.Copy(narr, chans, chans.Length)` — copying `chans.Length` entries
FROM the freshly allocated all-null array `narr` INTO the old array — which
throws `ArgumentException` when `chans.Length > narr.Length` (a shrink) and
otherwise leaves `narr` untouched; the grow loop then fills only the slots
`[chans.Length, numChannels)` of `narr` with new channels, and `chans`
becomes `narr`.  Finally `reserved` is clamped to `numChannels` when above
it. -/
def allocateChannels (st : MixerState) (numChannels : ℤ) : AllocResult :=
  if numChannels < 0 then .error .outOfRange st []
  else
    let n := numChannels.toNat
    match stopAll (st.chans.drop n) with
    | .error e => .error e st []
    | .ok (stopped, evs) =>
      let oldLen := st.chans.length
      if n < oldLen then
        .error .argArrayCopy { st with chans := st.chans.take n ++ stopped } evs
      else
        let narr : List (Option Channel) :=
          (List.range n).map fun i =>
            if i < oldLen then Option.none else some (newChannel (i : ℤ))
        .ok { st with chans := narr,
                      reserved := if numChannels < st.reserved then numChannels
                                  else st.reserved } evs

/-- `Mixer.ToGroup` (Mixer.cs line 949). -/
def toGroup (group : ℤ) : ℤ := -group - 2

/-- `Mixer.GetGroup` (Mixer.cs lines 950-957): decode the id, throw
`ArgumentException` on an out-of-range index or a cleared slot. -/
def getGroup (st : MixerState) (group : ℤ) : Except GlError (List ℤ) :=
  let index := toGroup group
  if index < 0 ∨ index ≥ (st.groups.length : ℤ) then .error .invalidGroupId
  else
    match st.groups.get? index.toNat with
    | some (some list) => .ok list
    | _ => .error .invalidGroupId

/-- `Mixer.AddGroup` (Mixer.cs lines 612-622): find the lowest null slot,
fill it and return its raw index `i`; otherwise append and return the raw
index `groups.Add` yields (the old count).  The returned value is the C#
`int` return of the method. -/
def addGroupAux : List (Option (List ℤ)) → ℕ →
    Option (ℕ × List (Option (List ℤ)))
  | [], _ => Option.none
  | Option.none :: rest, i => some (i, some [] :: rest)
  | some g :: rest, i =>
    match addGroupAux rest (i + 1) with
    | some (j, rest1) => some (j, some g :: rest1)
    | Option.none => Option.none

/-- `Mixer.AddGroup` (Mixer.cs lines 612-622): the returned id and the new
group registry. -/
def addGroup (st : MixerState) : ℤ × MixerState :=
  match addGroupAux st.groups 0 with
  | some (i, groups1) => ((i : ℤ), { st with groups := groups1 })
  | Option.none =>
      ((st.groups.length : ℤ), { st with groups := st.groups ++ [some []] })

/-- `Mixer.RemoveGroup` (Mixer.cs line 624): validate the id, then clear the
slot. -/
def removeGroup (st : MixerState) (group : ℤ) : Except GlError MixerState :=
  match getGroup st group with
  | .error e => .error e
  | .ok _ => .ok { st with groups := st.groups.set (toGroup group).toNat Option.none }

/-- The admission target of `Mixer.StartPlaying`: the sentinel
`FreeChannel = -1` or a (negative) group id. -/
inductive Target
  | freeChannel
  | group (id : ℤ)
deriving DecidableEq, Repr

/-- The scan of the free-channel arm of `Mixer.StartPlaying` (Mixer.cs lines
722-730): the first index in `[reserved, length)` whose status is `Stopped`;
a null slot raises `NullReferenceException`. -/
def firstStoppedAux : List (Option Channel) → ℕ → Except GlError (Option ℕ)
  | [], _ => .ok Option.none
  | Option.none :: _, _ => .error .nullReference
  | some c :: rest, i =>
    if c.status = AudioStatus.stopped then .ok (some i)
    else firstStoppedAux rest (i + 1)

/-- The scan of the group arm of `Mixer.StartPlaying` (Mixer.cs lines
733-747): walk the member list, skip members below `reserved`, and return the
first whose channel status is `Stopped`. -/
def firstStoppedGroup (st : MixerState) : List ℤ → Except GlError (Option ℤ)
  | [] => .ok Option.none
  | ch :: rest =>
    if ch < st.reserved then firstStoppedGroup st rest
    else if ch < 0 ∨ ch ≥ (st.chans.length : ℤ) then .error .indexOutOfRange
    else
      match st.chans.get? ch.toNat with
      | some (some c) =>
        if c.status = AudioStatus.stopped then .ok (some ch)
        else firstStoppedGroup st rest
      | _ => .error .nullReference

/-- One scan of the candidate set of `Mixer.StartPlaying` for the given
target. -/
def scanIdle (st : MixerState) : Target → Except GlError (Option ℤ)
  | .freeChannel =>
    if st.reserved < 0 then .error .indexOutOfRange
    else
      match firstStoppedAux (st.chans.drop st.reserved.toNat) st.reserved.toNat with
      | .error e => .error e
      | .ok Option.none => .ok Option.none
      | .ok (some i) => .ok (some (i : ℤ))
  | .group id =>
    match getGroup st id with
    | .error e => .error e
    | .ok members => firstStoppedGroup st members

/-- Bind the source on the channel at the given index and return the updated
mixer state together with the events fired; the channel's own `StartPlaying`
may throw, and the exception propagates. -/
def bindAt (st : MixerState) (i : ℤ) (source : AudioSource) (loops : ℤ)
    (fade : Fade) (fadeMs : ℕ) (timeoutMs : ℤ) (now : ℕ) :
    Except GlError (MixerState × List GlEvent) :=
  match st.chans.get? i.toNat with
  | some (some c) =>
    let r := Channel.startPlaying now c source loops fade fadeMs timeoutMs
    match r.error with
    | some e => .error e
    | Option.none =>
      .ok ({ st with chans := st.chans.set i.toNat (some r.chan) }, r.events)
  | _ => .error .indexOutOfRange

/-- The do-while loop of `Mixer.StartPlaying` (Mixer.cs lines 719-748) in the
sequential semantics, fuelled.  The loop body scans the candidate set; when an
idle candidate is found its locked status recheck succeeds (no interleaving),
the source is bound and its index returned, so `tried` can never be left true
at the end of an iteration; when no idle candidate exists the body sets
nothing and `while(!tried)` repeats the scan on an identical state, so the
loop spins — fuel exhaustion (`.ok none`) marks that divergence, and the
policy switch after the loop (Mixer.cs lines 750-810) is unreachable. -/
def startPlayingLoop (st : MixerState) (target : Target) (source : AudioSource)
    (loops : ℤ) (fade : Fade) (fadeMs : ℕ) (timeoutMs : ℤ) (now : ℕ) :
    ℕ → Except GlError (Option (ℤ × MixerState × List GlEvent))
  | 0 => .ok Option.none
  | fuel + 1 =>
    match scanIdle st target with
    | .error e => .error e
    | .ok (some i) =>
      match bindAt st i source loops fade fadeMs timeoutMs now with
      | .error e => .error e
      | .ok (st1, evs) => .ok (some (i, st1, evs))
    | .ok Option.none =>
      startPlayingLoop st target source loops fade fadeMs timeoutMs now fuel

/-- `Mixer.StartPlaying` under the `Fail` play policy (Mixer.cs lines
714-811): return `-1` immediately when `reserved == chans.Length`, otherwise
run the admission loop.  `.ok none` records that the loop never terminates
(the fuel bound is arbitrary). -/
def mixerStartPlaying (fuel : ℕ) (st : MixerState) (target : Target)
    (source : AudioSource) (loops : ℤ) (fade : Fade) (fadeMs : ℕ)
    (timeoutMs : ℤ) (now : ℕ) :
    Except GlError (Option (ℤ × MixerState × List GlEvent)) :=
  if st.reserved = (st.chans.length : ℤ) then .ok (some (-1, st, []))
  else startPlayingLoop st target source loops fade fadeMs timeoutMs now fuel

/-- `AudioFormat` (Mixer.cs lines 31-42); `format` is the raw `ushort` value
of the `SampleFormat` flags. -/
structure AudioFormat where
  frequency : ℕ
  format : ℕ
  channels : ℕ
deriving DecidableEq, Repr

/-- Modelled from the spec: the numeric value of
`SampleFormat.MixerFormat = GLMixer.Format.MixerFormat`, whose defining
interop enum is outside src/.  The spec fixes only what the claims use: it is
a distinguished flags value denoting the 32-bit summing representation, so
its bits-part is 32 (sample size 4) and it differs from every 8/16-bit PCM
format value. -/
def mixerFormatCode : ℕ := 32800

/-- `AudioFormat.SampleSize` (Mixer.cs line 35): `(Format & BitsPart) >> 3`
with `BitsPart = 0xFF`. -/
def sampleSize (fmt : ℕ) : ℕ := (fmt % 256) / 8

/-- The managed view of `GLMixer.AudioCVT`: the length multiplier/divisor pair
`Mixer.SetupCVT` returns (`output_bytes = input_bytes × mul / div`). -/
structure AudioCVT where
  lenMul : ℤ
  lenDiv : ℤ
deriving DecidableEq, Repr

/-- `Mixer.SetupCVT` (Mixer.cs lines 843-860).  The equal-format branch sets
`lenMul = lenDiv = 1` but does not return, so control continues into the
MixerFormat tests; the general branch calls the native `GLM_SetupCVT`, which
is outside src/ and is therefore abstracted as the parameter `native`. -/
def setupCVT (native : AudioFormat → AudioFormat → AudioCVT)
    (srcFormat destFormat : AudioFormat) : Except GlError AudioCVT :=
  let cvt : AudioCVT := ⟨0, 0⟩
  let _cvtEq : AudioCVT := if srcFormat = destFormat then ⟨1, 1⟩ else cvt
  if srcFormat.format = mixerFormatCode ∧ destFormat.format = mixerFormatCode then
    .error .notImplementedCvt
  else if srcFormat.format = mixerFormatCode then
    .ok ⟨(sampleSize destFormat.format : ℤ), 4⟩
  else if destFormat.format = mixerFormatCode then
    .ok ⟨4, (sampleSize destFormat.format : ℤ)⟩
  else .ok (native srcFormat destFormat)

/-! Concrete fixtures used by the theorems and witnesses below. -/

/-- A seekable, rewindable in-memory source with four frames of data. -/
def srcMem : AudioSource :=
  { canRewind := true, canSeek := true, priority := 0, srcVolume := 256,
    rate := 1, playing := 0, data := [1000, -1000, 2000, -2000], pos := 0 }

/-- A source that can neither rewind nor seek. -/
def srcNoRewind : AudioSource := { srcMem with canRewind := false, canSeek := false }

/-- Channel 0 currently playing `srcMem` with an infinite timeout. -/
def chanPlaying : Channel :=
  { newChannel 0 with source := some srcMem, timeout := -1 }

/-- A mixer whose single unreserved channel is busy. -/
def stBusy : MixerState :=
  { chans := [some chanPlaying], reserved := 0, groups := [] }

/-- A mixer whose every channel is reserved. -/
def stReservedFull : MixerState :=
  { chans := [some chanPlaying], reserved := 1, groups := [] }

/-- A mixer with a busy channel 0 and an idle channel 1, nothing reserved. -/
def stWithIdle : MixerState :=
  { chans := [some chanPlaying, some (newChannel 1)], reserved := 0, groups := [] }

/-- A mixer with one allocated channel, as produced by `AllocateChannels(1)`
from the initial empty array. -/
def stOneChan : MixerState :=
  { chans := [some (newChannel 0)], reserved := 0, groups := [] }

/-- A mixer with two channels, the second currently playing. -/
def stTwoChans : MixerState :=
  { chans := [some (newChannel 0), some { newChannel 1 with source := some srcMem, timeout := -1 }],
    reserved := 0, groups := [] }

/-- The value of the playing channel 1 of `stTwoChans` after its `Stop`. -/
def chanOneStopped : Channel :=
  { newChannel 1 with source := Option.none, timeout := -1 }

/-- A mixer with no groups registered. -/
def stNoGroups : MixerState := { chans := [], reserved := 0, groups := [] }

/-- An `AudioFormat` whose sample encoding is the MixerFormat. -/
def mixerFmt : AudioFormat := ⟨22050, mixerFormatCode, 2⟩

/-- C1.  The spec says `play(policy=Fail)` returns `-1` iff every non-reserved
candidate is non-Idle.  In the code the admission do-while (Mixer.cs lines
719-748) can only leave its body by returning a bound index, and `tried`
stays false when no candidate is Idle, so `while(!tried)` rescans an
unchanged state forever: with one busy unreserved channel the call never
returns at all (first conjunct: no amount of fuel makes the loop produce a
result), instead of returning `-1` as specified; the `reserved==length` fast
path and the bind-first-idle path behave as claimed (second and third
conjuncts). -/
theorem startPlaying_fail_policy_spins_when_all_busy :
    (∀ fuel, mixerStartPlaying fuel stBusy Target.freeChannel srcMem 0 Fade.none 0 (-1) 0
      = Except.ok Option.none)
    ∧ mixerStartPlaying 0 stReservedFull Target.freeChannel srcMem 0 Fade.none 0 (-1) 0
      = Except.ok (some (-1, stReservedFull, []))
    ∧ (mixerStartPlaying 1 stWithIdle Target.freeChannel srcMem 0 Fade.none 0 (-1) 0
      = Except.ok (some (1,
          { stWithIdle with
            chans := stWithIdle.chans.set 1
              (some (Channel.startPlaying 0 (newChannel 1) srcMem 0 Fade.none 0 (-1)).chan) },
          []))) := by
  refine ⟨?_, rfl, rfl⟩
  intro fuel
  induction fuel with
  | zero => rfl
  | succ n ih =>
    have h : mixerStartPlaying (n + 1) stBusy Target.freeChannel srcMem 0 Fade.none 0 (-1) 0
        = mixerStartPlaying n stBusy Target.freeChannel srcMem 0 Fade.none 0 (-1) 0 := rfl
    rw [h]
    exact ih

/-- C2.  `AllocateChannels` should preserve existing channels on grow, but
`Array.Copy(narr, chans, chans.Length)` (Mixer.cs line 605) has source and
destination swapped: growing the one-channel array to two leaves slot 0 null
and only appends the fresh channel 1 (first conjunct, contradicting the
claim's non-null-slots postcondition), and shrinking two channels to one
stops channel 1 (firing its finished events) and then throws
`ArgumentException` from `Array.Copy` instead of releasing the trailing slot
(second conjunct). -/
theorem allocateChannels_copy_swapped :
    allocateChannels stOneChan 2
      = AllocResult.ok
          { chans := [Option.none, some (newChannel 1)], reserved := 0, groups := [] } []
    ∧ allocateChannels stTwoChans 1
      = AllocResult.error GlError.argArrayCopy
          { chans := [some (newChannel 0), some chanOneStopped], reserved := 0, groups := [] }
          [GlEvent.chanFinished 1, GlEvent.mixerChannelFinished 1] :=
  ⟨rfl, rfl⟩

/-- C3.  `AddGroup` (Mixer.cs lines 612-622) returns the raw slot index
(`return i` / `return groups.Add(...)`) without the `-slot - 2` encoding the
spec promises: the first `AddGroup` returns `0`, which is not negative, and
`GetGroup` decodes it to index `-2` and rejects it as an invalid group id, so
the returned id is not accepted by any group operation. -/
theorem addGroup_returns_unencoded_slot :
    (addGroup stNoGroups).1 = 0
    ∧ ¬ (addGroup stNoGroups).1 < 0
    ∧ getGroup (addGroup stNoGroups).2 (addGroup stNoGroups).1
      = Except.error GlError.invalidGroupId :=
  ⟨rfl, by decide, rfl⟩

/-- C4.  The `ReservedChannels` setter (Mixer.cs lines 552-559) validates the
current field `reserved` instead of the incoming `value`, so with two
channels and `reserved = 0` it accepts both `5` and `-3` without raising
`OutOfRange` and stores them, breaking `0 ≤ reserved ≤ channels.length`. -/
theorem reservedChannels_setter_checks_current_value :
    setReservedChannels { stTwoChans with reserved := 0 } 5
      = Except.ok { stTwoChans with reserved := 5 }
    ∧ setReservedChannels { stTwoChans with reserved := 0 } (-3)
      = Except.ok { stTwoChans with reserved := -3 }
    ∧ ¬ ((5 : ℤ) ≤ ((stTwoChans.chans.length : ℕ) : ℤ)) :=
  ⟨rfl, rfl, by decide⟩

/-- C5.  Both `PlaybackRate` setters (`AudioSource` at Mixer.cs line 60 and
`Channel` at line 372) call `CheckRate(rate)` on the current field rather
than on `value`: starting from the default rate 1, assigning `-2` raises
nothing and stores `-2` in both cases, contradicting the claim that a
negative assignment raises `OutOfRange` and leaves the rate unchanged. -/
theorem playbackRate_setter_checks_current_value :
    srcMem.setPlaybackRate (-2) = Except.ok { srcMem with rate := -2 }
    ∧ (newChannel 0).setPlaybackRate (-2)
      = Except.ok { newChannel 0 with rate := -2 } :=
  ⟨rfl, rfl⟩

/-- C8.  `SetupCVT` (Mixer.cs lines 843-860) should return
`lenMul = lenDiv = 1` for equal formats and fail only for two DISTINCT
MixerFormat variants, but the equal-format branch does not return, so the
MixerFormat test that follows also fires when the two formats are the same
MixerFormat value: `SetupCVT(f, f)` with `f.Format == MixerFormat` throws
`NotImplementedException` for every behaviour of the native converter. -/
theorem setupCVT_equal_mixer_format_throws :
    ∀ native, setupCVT native mixerFmt mixerFmt = Except.error GlError.notImplementedCvt :=
  fun _ => rfl

lemma u32_small (x : ℕ) (h : x < 4294967296) : u32 x = x := Nat.mod_eq_of_lt h

lemma usub32_add_left (fs t : ℕ) (h : fs + t < 4294967296) : usub32 (fs + t) fs = t := by
  unfold usub32
  rw [u32_small (fs + t) h, u32_small fs (by omega)]
  have h1 : fs + t + 4294967296 - fs = t + 4294967296 := by omega
  rw [h1, Nat.add_mod_right]
  exact Nat.mod_eq_of_lt (by omega)

lemma toInt32u_small (x : ℕ) (h : x < 2147483648) : toInt32u x = (x : ℤ) := by
  unfold toInt32u
  rw [u32_small x (by omega)]
  simp [h]

lemma wrap32_eq (x : ℤ) (h1 : -2147483648 ≤ x) (h2 : x < 2147483648) :
    wrap32 x = x := by
  unfold wrap32
  omega

lemma stopPlaying_of_some (c : Channel) (src : AudioSource) (h : c.source = some src) :
    c.stopPlaying = ({ c with source := Option.none },
      [GlEvent.chanFinished c.number, GlEvent.mixerChannelFinished c.number]) := by
  unfold Channel.stopPlaying
  rw [h]

lemma stopPlaying_of_none (c : Channel) (h : c.source = Option.none) :
    c.stopPlaying = (c, []) := by
  unfold Channel.stopPlaying
  rw [h]

/-- C6, amended.  For a channel fading out over `D` ms from effective volume
`V ≤ 256` (recorded in `fadeVolume` by `FadeOut`), a mix pass at elapsed time
`t ≤ D` proceeds with a scale factor `v` satisfying `0 ≤ v·D − V·(D−t) < D`,
i.e. `v` is within 1 of `V·(D−t)/D` — PROVIDED the intermediate product
`V·t` stays below `2^31`, since the C# interpolation
`(target-fadeVolume)*(int)fadeSoFar` (Mixer.cs line 446) is wrapping 32-bit
arithmetic (see the counterexample below for the overflow regime); and a pass
with `t > D` stops the channel, firing its finished events (transition to
Idle). -/
theorem fadeOut_scale_linear (c : Channel) (src : AudioSource) (V D t fs : ℕ)
    (hsrc : c.source = some src) (hp : c.paused = false)
    (hto : c.timeout = infiniteC) (hf : c.fade = Fade.fadeOut)
    (hfv : c.fadeVolume = (V : ℤ)) (hfs : c.fadeStart = fs) (hft : c.fadeTime = D)
    (hD : 0 < D) (hDsz : D < 2147483648) (hsz : fs + t < 4294967296)
    (hV : V ≤ 256) (hVt : V * t < 2147483648) :
    (t ≤ D → ∃ v : ℤ,
      Channel.mixPre (fs + t) c = MixPre.proceed c src v ∧
      0 ≤ v * (D : ℤ) - (V : ℤ) * ((D : ℤ) - (t : ℤ)) ∧
      v * (D : ℤ) - (V : ℤ) * ((D : ℤ) - (t : ℤ)) < (D : ℤ))
    ∧ (D < t →
      Channel.mixPre (fs + t) c =
        MixPre.exit { c with source := Option.none }
          [GlEvent.chanFinished c.number, GlEvent.mixerChannelFinished c.number]) := by
  have hsub : usub32 (fs + t) c.fadeStart = t := by
    rw [hfs]; exact usub32_add_left fs t hsz
  have hstop := stopPlaying_of_some c src hsrc
  constructor
  · intro hle
    have h1 : toInt32u t = (t : ℤ) := toInt32u_small t (by omega)
    have h2 : toInt32u D = (D : ℤ) := toInt32u_small D hDsz
    have htarget : (if Fade.fadeOut = Fade.fadeIn then c.effectiveVolume src else (0 : ℤ))
        = 0 := if_neg (by decide)
    have hw1 : wrap32 (0 - (V : ℤ)) = -(V : ℤ) := by
      rw [wrap32_eq (0 - (V : ℤ)) (by omega) (by omega)]
      ring
    have hprod : (-(V : ℤ)) * (t : ℤ) = -(((V * t : ℕ)) : ℤ) := by push_cast; ring
    have hw2 : wrap32 (-(((V * t : ℕ)) : ℤ)) = -(((V * t : ℕ)) : ℤ) :=
      wrap32_eq _ (by omega) (by omega)
    have hcast : ((V * t : ℕ) : ℤ).tdiv ((D : ℕ) : ℤ) = ((V * t / D : ℕ) : ℤ) := by
      exact_mod_cast rfl
    have htd : Int.tdiv (-((V * t : ℕ) : ℤ)) ((D : ℕ) : ℤ) = -(((V * t / D : ℕ)) : ℤ) := by
      rw [Int.neg_tdiv]
      exact congrArg Neg.neg hcast
    have hq : V * t / D ≤ V :=
      le_trans (Nat.div_le_div_right (Nat.mul_le_mul_left V hle))
        (le_of_eq (Nat.mul_div_cancel V hD))
    have hcastq : ((V * t / D : ℕ) : ℤ) ≤ (V : ℤ) := by exact_mod_cast hq
    have hcastV : (V : ℤ) ≤ 256 := by exact_mod_cast hV
    have h0q : (0 : ℤ) ≤ ((V * t / D : ℕ) : ℤ) := Int.natCast_nonneg _
    have hw3 : wrap32 ((V : ℤ) + -(((V * t / D : ℕ)) : ℤ))
        = (V : ℤ) - ((V * t / D : ℕ) : ℤ) := by
      rw [wrap32_eq ((V : ℤ) + -(((V * t / D : ℕ)) : ℤ)) (by linarith) (by linarith)]
      ring
    refine ⟨(V : ℤ) - ((V * t / D : ℕ) : ℤ), ?_, ?_⟩
    · unfold Channel.mixPre
      rw [hsrc]
      simp only [hp, Bool.false_eq_true, if_false, hto, ne_eq, not_true_eq_false,
        false_and, hf, hsub, hft, h1, h2, hfv, htarget]
      rw [if_neg (by decide), if_neg (by omega), if_neg (show ¬((D : ℤ) = 0) by omega),
        hw1, hprod, hw2, if_neg (by rintro ⟨-, hd⟩; omega), htd, hw3]
    · have hdm : D * (V * t / D) + (V * t) % D = V * t := Nat.div_add_mod _ _
      have hml : (V * t) % D < D := Nat.mod_lt _ hD
      have h1z : ((D : ℤ)) * ((V * t / D : ℕ) : ℤ) + (((V * t) % D : ℕ) : ℤ)
          = (V : ℤ) * (t : ℤ) := by exact_mod_cast hdm
      have key : ((V : ℤ) - (((V * t / D : ℕ)) : ℤ)) * (D : ℤ)
          - (V : ℤ) * ((D : ℤ) - (t : ℤ)) = (((V * t) % D : ℕ) : ℤ) := by
        linear_combination -h1z
      rw [key]
      exact ⟨by positivity, by exact_mod_cast hml⟩
  · intro hlt
    unfold Channel.mixPre
    rw [hsrc]
    simp only [hp, Bool.false_eq_true, if_false, hto, ne_eq, not_true_eq_false,
      false_and, hf, hsub, hft, hfv]
    rw [if_neg (by decide), if_pos (show t > D by omega)]
    rw [if_pos trivial, hstop, hto, hf, hft, hfv, hp]

/-- A channel fading out from volume 256 over `2^24` ms (about 4.7 hours),
as `FadeOut(16777216)` records it. -/
def chanFadingLong : Channel :=
  { newChannel 0 with
    source := some srcMem
    timeout := -1
    fade := Fade.fadeOut
    fadeStart := 0
    fadeTime := 16777216
    fadeVolume := 256 }

/-- C6 counterexample: the claim as stated fails on the code.  At `V = 256`,
`D = 2^24`, `t = 2^23 + 1` (inside `t ≤ D`), the product
`(target-fadeVolume)*(int)fadeSoFar = -256 · 8388609` overflows `int` and
wraps to `+2147483392`, so the mix pass applies scale `383` where the linear
value `V·(D−t)/D` is ≈ 128: the distance `v·D − V·(D−t)` is about `255·D`,
far outside the claimed ±1 (i.e. `≤ D`) band. -/
theorem fadeOut_scale_wrap_counterexample :
    (8388609 : ℕ) ≤ 16777216
    ∧ Channel.mixPre 8388609 chanFadingLong = MixPre.proceed chanFadingLong srcMem 383
    ∧ ¬ (383 * (16777216 : ℤ) - 256 * ((16777216 : ℤ) - 8388609) ≤ 16777216) :=
  ⟨by decide, by decide, by decide⟩

/-- C6 witness: the fade-out theorem applied at `V = 256`, `D = 1000`,
`t = 250` on a concrete fading channel. -/
def chanFading : Channel :=
  { newChannel 0 with
    source := some srcMem
    timeout := -1
    fade := Fade.fadeOut
    fadeStart := 0
    fadeTime := 1000
    fadeVolume := 256 }

theorem fadeOut_scale_linear_witness :
    (chanFading.source = some srcMem ∧ chanFading.paused = false ∧
     chanFading.timeout = infiniteC ∧ chanFading.fade = Fade.fadeOut ∧
     chanFading.fadeVolume = ((256 : ℕ) : ℤ) ∧ chanFading.fadeStart = 0 ∧
     chanFading.fadeTime = 1000 ∧ 0 < 1000 ∧ 1000 < 2147483648 ∧
     0 + 250 < 4294967296 ∧ 256 ≤ 256 ∧ 256 * 250 < 2147483648 ∧ 250 ≤ 1000) ∧
    (∃ v : ℤ, Channel.mixPre (0 + 250) chanFading = MixPre.proceed chanFading srcMem v ∧
      0 ≤ v * ((1000 : ℕ) : ℤ) - ((256 : ℕ) : ℤ) * (((1000 : ℕ) : ℤ) - ((250 : ℕ) : ℤ)) ∧
      v * ((1000 : ℕ) : ℤ) - ((256 : ℕ) : ℤ) * (((1000 : ℕ) : ℤ) - ((250 : ℕ) : ℤ))
        < ((1000 : ℕ) : ℤ)) :=
  ⟨⟨rfl, rfl, rfl, rfl, rfl, rfl, rfl, by decide, by decide, by decide, by decide,
    by decide, by decide⟩,
   (fadeOut_scale_linear chanFading srcMem 256 1000 250 0 rfl rfl rfl rfl rfl rfl rfl
      (by decide) (by decide) (by decide) (by decide) (by decide)).1 (by decide)⟩

/-- C7.  Binding a non-rewindable source with `loops ≠ 0` throws
`ArgumentException` from `Channel.StartPlaying` (Mixer.cs line 391): the new
source is not bound (the channel is left idle, since the unconditional
`StopPlaying` at line 389 already cleared any prior binding) and the source
object is untouched; with `loops = 0` that error is never raised. -/
theorem startPlaying_loop_unrewindable (now : ℕ) (c : Channel) (src : AudioSource)
    (loops : ℤ) (fade : Fade) (fadeMs : ℕ) (timeoutMs : ℤ) :
    (src.canRewind = false → loops ≠ 0 →
      (Channel.startPlaying now c src loops fade fadeMs timeoutMs).error
          = some GlError.argLoopUnrewindable
      ∧ (Channel.startPlaying now c src loops fade fadeMs timeoutMs).chan.source
          = Option.none
      ∧ (Channel.startPlaying now c src loops fade fadeMs timeoutMs).src = src)
    ∧ (loops = 0 →
      (Channel.startPlaying now c src loops fade fadeMs timeoutMs).error
        ≠ some GlError.argLoopUnrewindable) := by
  have hchan : ∀ d : Channel, (d.stopPlaying).1.source = Option.none := by
    intro d
    cases h : d.source with
    | none => rw [stopPlaying_of_none d h, h]
    | some s => rw [stopPlaying_of_some d s h]
  constructor
  · intro hcr hl
    unfold Channel.startPlaying
    rw [if_pos ⟨hcr, hl⟩]
    exact ⟨rfl, hchan c, rfl⟩
  · intro hl
    unfold Channel.startPlaying
    rw [if_neg (by simp [hl])]
    by_cases hseek : src.canSeek = false ∧ src.playing > 0
    · rw [if_pos hseek]; simp
    · rw [if_neg hseek]; simp

theorem startPlaying_loop_unrewindable_witness :
    (srcNoRewind.canRewind = false ∧ (2 : ℤ) ≠ 0 ∧
      (Channel.startPlaying 0 (newChannel 0) srcNoRewind 2 Fade.none 0 (-1)).error
        = some GlError.argLoopUnrewindable
      ∧ (Channel.startPlaying 0 (newChannel 0) srcNoRewind 2 Fade.none 0 (-1)).chan.source
        = Option.none
      ∧ (Channel.startPlaying 0 (newChannel 0) srcNoRewind 2 Fade.none 0 (-1)).src
        = srcNoRewind)
    ∧ ((Channel.startPlaying 0 (newChannel 0) srcNoRewind 0 Fade.none 0 (-1)).error
        ≠ some GlError.argLoopUnrewindable) := by
  have h := startPlaying_loop_unrewindable 0 (newChannel 0) srcNoRewind 2 Fade.none 0 (-1)
  have h0 := startPlaying_loop_unrewindable 0 (newChannel 0) srcNoRewind 0 Fade.none 0 (-1)
  have h2 := h.1 rfl (by decide)
  exact ⟨⟨rfl, by decide, h2.1, h2.2.1, h2.2.2⟩, h0.2 rfl⟩

lemma glmMix_nil (acc : List ℤ) (v : ℤ) : glmMix acc [] v = acc := by
  cases acc <;> rfl

lemma stepOp_idle (w : World) (op : Op) (h : w.chan.source = Option.none)
    (hop : op.isStart = false) :
    (stepOp w op).chan.source = Option.none ∧ (stepOp w op).acc = w.acc ∧
    (stepOp w op).events = w.events := by
  cases op with
  | start l f fm tm n => simp [Op.isStart] at hop
  | stop => simp [stepOp, stopPlaying_of_none w.chan h, h]
  | pause => simp [stepOp, Channel.pauseCmd, h]
  | resume => simp [stepOp, Channel.resumeCmd, h]
  | fadeOutOp ms now => simp [stepOp, Channel.fadeOutCmd, h]
  | mixOp now frames =>
      have hmix : Channel.mix now frames w.chan w.acc
          = ⟨w.chan, w.chan.source, w.acc, [], false⟩ := by
        unfold Channel.mix Channel.mixPre
        rw [h]
      simp [stepOp, hmix, h]

lemma runOps_idle (ops : List Op) : ∀ w : World, w.chan.source = Option.none →
    (∀ op ∈ ops, op.isStart = false) →
    (runOps w ops).chan.source = Option.none ∧ (runOps w ops).acc = w.acc ∧
    (runOps w ops).events = w.events := by
  induction ops with
  | nil => intro w h _; exact ⟨h, rfl, rfl⟩
  | cons op ops ih =>
    intro w h hops
    have h1 := stepOp_idle w op h (hops op (by simp))
    have h2 := ih (stepOp w op) h1.1 (fun o ho => hops o (by simp [ho]))
    exact ⟨h2.1, h2.2.1.trans h1.2.1, h2.2.2.trans h1.2.2⟩

lemma mixPre_timeout (now : ℕ) (c : Channel) (src : AudioSource)
    (hsrc : c.source = some src) (hp : c.paused = false)
    (hto : c.timeout ≠ infiniteC) (hgt : (usub32 now c.startTime : ℤ) > c.timeout) :
    Channel.mixPre now c = MixPre.exit (c.stopPlaying).1 (c.stopPlaying).2 := by
  unfold Channel.mixPre
  rw [hsrc]
  simp only [hp, Bool.false_eq_true, if_false]
  rw [if_pos ⟨hto, hgt⟩]

lemma mix_timeout_stops (now frames : ℕ) (acc : List ℤ) (c : Channel)
    (src : AudioSource) (hsrc : c.source = some src) (hp : c.paused = false)
    (hto : c.timeout ≠ infiniteC) (hgt : (usub32 now c.startTime : ℤ) > c.timeout) :
    (Channel.mix now frames c acc).events
        = [GlEvent.chanFinished c.number, GlEvent.mixerChannelFinished c.number]
      ∧ (Channel.mix now frames c acc).chan.source = Option.none
      ∧ (Channel.mix now frames c acc).acc = acc := by
  have hmix : Channel.mix now frames c acc
      = ⟨(c.stopPlaying).1, c.source, acc, (c.stopPlaying).2, false⟩ := by
    unfold Channel.mix
    rw [mixPre_timeout now c src hsrc hp hto hgt]
  rw [hmix, stopPlaying_of_some c src hsrc]
  exact ⟨rfl, rfl, rfl⟩

lemma mixPre_plain (now : ℕ) (c : Channel) (src : AudioSource)
    (hsrc : c.source = some src) (hp : c.paused = false)
    (hto : c.timeout = infiniteC) (hf : c.fade = Fade.none) :
    Channel.mixPre now c = MixPre.proceed c src (c.effectiveVolume src) := by
  unfold Channel.mixPre
  rw [hsrc]
  simp only [hp, Bool.false_eq_true, if_false]
  rw [if_neg (by simp [hto]), if_pos hf]

lemma mixLoop_eos (fuel : ℕ) (c : Channel) (src : AudioSource) (toRead volume : ℤ)
    (acc : List ℤ) (hend : (src.data.length : ℤ) ≤ src.pos) (htr : 0 < toRead)
    (hl : c.loops = 0) :
    Channel.mixLoop (fuel + 1) c src toRead volume acc
      = ({ c with source := Option.none }, { src with pos := src.pos + ((0 : ℕ) : ℤ) },
         acc, [GlEvent.chanFinished c.number, GlEvent.mixerChannelFinished c.number]) := by
  unfold Channel.mixLoop AudioSource.readFrames
  have h0 : ((src.data.length : ℤ) - src.pos).toNat = 0 := Int.toNat_of_nonpos (by omega)
  simp only [h0, Nat.min_zero, List.take_zero, glmMix_nil, Nat.cast_zero]
  rw [if_neg (by omega), if_pos trivial, if_pos hl, stopPlaying_of_some _ _ rfl]

lemma mix_eos_stops (now frames : ℕ) (acc : List ℤ) (c : Channel)
    (src : AudioSource) (hsrc : c.source = some src) (hp : c.paused = false)
    (hto : c.timeout = infiniteC) (hf : c.fade = Fade.none)
    (hcv : c.convert = false) (hcr : c.rate = 1) (hsr : src.rate = 1)
    (hseek : src.canSeek = true) (hend : (src.data.length : ℤ) ≤ c.pos)
    (hl : c.loops = 0) (hfr : 0 < frames) :
    (Channel.mix now frames c acc).events
        = [GlEvent.chanFinished c.number, GlEvent.mixerChannelFinished c.number]
      ∧ (Channel.mix now frames c acc).chan.source = Option.none
      ∧ (Channel.mix now frames c acc).acc = acc := by
  unfold Channel.mix
  rw [mixPre_plain now c src hsrc hp hto hf]
  simp only [hseek, if_true, hcv, Bool.false_eq_true, false_or, Channel.effectiveRate,
    hsr, hcr, mul_one, ne_eq, not_true_eq_false, if_false, hl, Int.toNat_zero]
  rw [show frames + 0 + 2 = (frames + 0 + 1) + 1 from rfl,
    mixLoop_eos (frames + 0 + 1) c { src with canSeek := true, rate := 1, pos := c.pos }
      (frames : ℤ) _ acc hend (by exact_mod_cast hfr) hl]
  exact ⟨rfl, rfl, rfl⟩

/-- C9.  Entering Idle fires the channel's `Finished` handlers and then the
mixer's `ChannelFinished` hook, in that order, exactly once per binding:
(1) `Stop` on a playing channel fires exactly that pair and clears the
binding; (2) `Stop` on an idle channel fires nothing; (3) from an idle
channel, any sequence of operations not containing a `StartPlaying` fires no
events and leaves every accumulator passed to `Mix` unchanged (zero
contribution); (4) a mix pass whose timeout has expired fires the pair,
idles the channel and leaves the accumulator untouched; (5) a mix pass
hitting end-of-stream with `loops == 0` does the same. -/
theorem stop_fires_finished_once_then_silence :
    (∀ (c : Channel) (src : AudioSource), c.source = some src →
      c.stopPlaying = ({ c with source := Option.none },
        [GlEvent.chanFinished c.number, GlEvent.mixerChannelFinished c.number]))
    ∧ (∀ c : Channel, c.source = Option.none → c.stopPlaying = (c, []))
    ∧ (∀ (w : World) (ops : List Op), w.chan.source = Option.none →
        (∀ op ∈ ops, op.isStart = false) →
        (runOps w ops).chan.source = Option.none ∧ (runOps w ops).acc = w.acc ∧
        (runOps w ops).events = w.events)
    ∧ (∀ (now frames : ℕ) (acc : List ℤ) (c : Channel) (src : AudioSource),
        c.source = some src → c.paused = false → c.timeout ≠ infiniteC →
        (usub32 now c.startTime : ℤ) > c.timeout →
        (Channel.mix now frames c acc).events
            = [GlEvent.chanFinished c.number, GlEvent.mixerChannelFinished c.number]
          ∧ (Channel.mix now frames c acc).chan.source = Option.none
          ∧ (Channel.mix now frames c acc).acc = acc)
    ∧ (∀ (now frames : ℕ) (acc : List ℤ) (c : Channel) (src : AudioSource),
        c.source = some src → c.paused = false → c.timeout = infiniteC →
        c.fade = Fade.none → c.convert = false → c.rate = 1 → src.rate = 1 →
        src.canSeek = true → (src.data.length : ℤ) ≤ c.pos → c.loops = 0 →
        0 < frames →
        (Channel.mix now frames c acc).events
            = [GlEvent.chanFinished c.number, GlEvent.mixerChannelFinished c.number]
          ∧ (Channel.mix now frames c acc).chan.source = Option.none
          ∧ (Channel.mix now frames c acc).acc = acc) :=
  ⟨stopPlaying_of_some,
   stopPlaying_of_none,
   fun w ops h hops => runOps_idle ops w h hops,
   fun now frames acc c src h1 h2 h3 h4 => mix_timeout_stops now frames acc c src h1 h2 h3 h4,
   fun now frames acc c src h1 h2 h3 h4 h5 h6 h7 h8 h9 h10 h11 =>
     mix_eos_stops now frames acc c src h1 h2 h3 h4 h5 h6 h7 h8 h9 h10 h11⟩

/-- A world whose only channel is idle. -/
def worldIdle : World :=
  { chan := newChannel 0, src := srcMem, acc := [0, 0, 0, 0], events := [] }

def opsNoStart : List Op :=
  [Op.stop, Op.pause, Op.mixOp 3 4, Op.fadeOutOp 10 5, Op.resume, Op.mixOp 6 4, Op.stop]

def chanTimedOut : Channel := { chanPlaying with timeout := 10, startTime := 0 }

theorem stop_fires_finished_once_then_silence_witness :
    (chanPlaying.source = some srcMem ∧
      chanPlaying.stopPlaying = ({ chanPlaying with source := Option.none },
        [GlEvent.chanFinished 0, GlEvent.mixerChannelFinished 0]))
    ∧ (worldIdle.chan.source = Option.none ∧ (∀ op ∈ opsNoStart, op.isStart = false) ∧
       ((runOps worldIdle opsNoStart).chan.source = Option.none ∧
        (runOps worldIdle opsNoStart).acc = worldIdle.acc ∧
        (runOps worldIdle opsNoStart).events = worldIdle.events))
    ∧ (chanTimedOut.source = some srcMem ∧ chanTimedOut.timeout ≠ infiniteC ∧
       (usub32 20 chanTimedOut.startTime : ℤ) > chanTimedOut.timeout ∧
       ((Channel.mix 20 4 chanTimedOut [0, 0, 0, 0]).events
           = [GlEvent.chanFinished 0, GlEvent.mixerChannelFinished 0]
         ∧ (Channel.mix 20 4 chanTimedOut [0, 0, 0, 0]).chan.source = Option.none
         ∧ (Channel.mix 20 4 chanTimedOut [0, 0, 0, 0]).acc = [0, 0, 0, 0])) :=
  ⟨⟨rfl, stop_fires_finished_once_then_silence.1 chanPlaying srcMem rfl⟩,
   ⟨rfl, by decide,
    stop_fires_finished_once_then_silence.2.2.1 worldIdle opsNoStart rfl (by decide)⟩,
   ⟨rfl, by decide, by decide,
    stop_fires_finished_once_then_silence.2.2.2.1 20 4 [0, 0, 0, 0] chanTimedOut srcMem
      rfl rfl (by decide) (by decide)⟩⟩

lemma mixLoop_playing : ∀ (fuel : ℕ) (c : Channel) (src : AudioSource)
    (toRead volume : ℤ) (acc : List ℤ),
    ((Channel.mixLoop fuel c src toRead volume acc).2.1).playing = src.playing := by
  intro fuel
  induction fuel with
  | zero => intro c src toRead volume acc; rfl
  | succ n ih =>
    intro c src toRead volume acc
    unfold Channel.mixLoop
    dsimp only
    split
    · rfl
    · split
      · split
        · rfl
        · exact ih _ _ _ _ _
      · exact ih _ _ _ _ _

lemma mix_src_playing (now frames : ℕ) (c : Channel) (acc : List ℤ) (src : AudioSource)
    (h : c.source = Option.none ∨ c.source = some src) :
    (((Channel.mix now frames c acc).srcFinal).getD src).playing = src.playing := by
  cases h with
  | inl h =>
    have hmix : Channel.mix now frames c acc = ⟨c, c.source, acc, [], false⟩ := by
      unfold Channel.mix Channel.mixPre; rw [h]
    rw [hmix, h]
    rfl
  | inr h =>
    unfold Channel.mix Channel.mixPre
    rw [h]
    dsimp only
    split
    · rfl
    · rfl
    · rename_i c1 s v heq
      have hs : s = src := by
        split at heq
        · cases heq
        · split at heq
          · cases heq
          · split at heq
            · cases heq; rfl
            · split at heq
              · split at heq
                · cases heq
                · cases heq; rfl
              · split at heq
                · cases heq
                · split at heq
                  · split at heq
                    · cases heq
                    · cases heq; rfl
                  · split at heq
                    · cases heq
                    · cases heq; rfl
      subst hs
      split
      · split
        · rfl
        · exact mixLoop_playing _ _ _ _ _ _
      · split
        · rfl
        · exact mixLoop_playing _ _ _ _ _ _

lemma stepOp_playing_mono (w : World) (op : Op)
    (h : w.chan.source = Option.none ∨ w.chan.source = some w.src) :
    w.src.playing ≤ (stepOp w op).src.playing := by
  cases op with
  | stop => exact le_refl _
  | pause => exact le_refl _
  | resume => exact le_refl _
  | fadeOutOp ms now => exact le_refl _
  | mixOp now frames =>
    exact le_of_eq (mix_src_playing now frames w.chan w.acc w.src h).symm
  | start loops fade fadeMs timeoutMs now =>
    show w.src.playing ≤ (Channel.startPlaying now w.chan w.src loops fade fadeMs timeoutMs).src.playing
    unfold Channel.startPlaying
    split
    · exact le_refl _
    · split
      · exact le_refl _
      · dsimp only
        omega

/-- C10.  The source's internal `playing` counter is incremented by each
successful `Channel.StartPlaying` and never decremented: (1) a successful
bind stores `playing + 1` and a throwing bind leaves the source untouched;
(2) `StopPlaying` does not modify the source at all; (3) no operation of the
channel/source world lowers `playing`; (4) consequently a source with
`CanSeek == false` and `playing > 0` can never be bound again — every later
`StartPlaying` throws `ArgumentException`, even after the earlier playback
has finished. -/
theorem playing_counter_never_decremented :
    (∀ (now : ℕ) (c : Channel) (src : AudioSource) (loops : ℤ) (fade : Fade)
        (fadeMs : ℕ) (timeoutMs : ℤ),
      ((Channel.startPlaying now c src loops fade fadeMs timeoutMs).error = Option.none →
        (Channel.startPlaying now c src loops fade fadeMs timeoutMs).src.playing
          = src.playing + 1)
      ∧ ((Channel.startPlaying now c src loops fade fadeMs timeoutMs).error ≠ Option.none →
        (Channel.startPlaying now c src loops fade fadeMs timeoutMs).src = src))
    ∧ (∀ w : World, (stepOp w Op.stop).src = w.src)
    ∧ (∀ (w : World) (op : Op),
        w.chan.source = Option.none ∨ w.chan.source = some w.src →
        w.src.playing ≤ (stepOp w op).src.playing)
    ∧ (∀ (now : ℕ) (c : Channel) (src : AudioSource) (loops : ℤ) (fade : Fade)
        (fadeMs : ℕ) (timeoutMs : ℤ), src.canSeek = false → src.playing > 0 →
        ((Channel.startPlaying now c src loops fade fadeMs timeoutMs).error).isSome = true) := by
  refine ⟨?_, fun w => rfl, stepOp_playing_mono, ?_⟩
  · intro now c src loops fade fadeMs timeoutMs
    by_cases h1 : src.canRewind = false ∧ loops ≠ 0
    · constructor
      · intro he
        unfold Channel.startPlaying at he
        rw [if_pos h1] at he
        exact absurd he (by simp)
      · intro _
        unfold Channel.startPlaying
        rw [if_pos h1]
    · by_cases h2 : src.canSeek = false ∧ src.playing > 0
      · constructor
        · intro he
          unfold Channel.startPlaying at he
          rw [if_neg h1, if_pos h2] at he
          exact absurd he (by simp)
        · intro _
          unfold Channel.startPlaying
          rw [if_neg h1, if_pos h2]
      · constructor
        · intro _
          unfold Channel.startPlaying
          rw [if_neg h1, if_neg h2]
        · intro he
          unfold Channel.startPlaying at he
          rw [if_neg h1, if_neg h2] at he
          exact absurd rfl he
  · intro now c src loops fade fadeMs timeoutMs hcs hpg
    unfold Channel.startPlaying
    split
    · rfl
    · rw [if_pos ⟨hcs, hpg⟩]
      rfl

def srcPlayedOnce : AudioSource := { srcNoRewind with playing := 1 }

theorem playing_counter_never_decremented_witness :
    ((Channel.startPlaying 5 (newChannel 0) srcMem 0 Fade.none 0 (-1)).src.playing
        = srcMem.playing + 1)
    ∧ (stepOp worldIdle Op.stop).src = worldIdle.src
    ∧ (worldIdle.chan.source = Option.none ∨ worldIdle.chan.source = some worldIdle.src)
    ∧ worldIdle.src.playing ≤ (stepOp worldIdle (Op.mixOp 3 4)).src.playing
    ∧ srcPlayedOnce.canSeek = false ∧ srcPlayedOnce.playing > 0
    ∧ ((Channel.startPlaying 0 (newChannel 1) srcPlayedOnce 0 Fade.none 0 (-1)).error).isSome
        = true :=
  ⟨(playing_counter_never_decremented.1 5 (newChannel 0) srcMem 0 Fade.none 0 (-1)).1 rfl,
   playing_counter_never_decremented.2.1 worldIdle,
   Or.inl rfl,
   playing_counter_never_decremented.2.2.1 worldIdle (Op.mixOp 3 4) (Or.inl rfl),
   rfl, by decide,
   playing_counter_never_decremented.2.2.2 0 (newChannel 1) srcPlayedOnce 0 Fade.none 0 (-1)
     rfl (by decide)⟩

end GameLibAudio
